import Mathlib

/-
Verification development for the AI_NEGOTIATION repository.

The negotiation engine of the repository is embedded shallowly:

* Python ints become Lean Int; Python float arithmetic over prices is
  modelled by exact rational arithmetic (the code only multiplies prices
  by small decimal constants and truncates with the builtin int, which is
  modelled by pyint below: truncation toward zero).
* The single genuinely transcendental float computation, the easing value
  progress ** 1.2 used by the buyer round target, is modelled by an
  abstract function argument eased_fn from the round number to a rational.
  Every theorem below either holds for all such functions or exercises
  only code paths whose result does not depend on the easing value.
* Randomness in the source only selects message strings, never prices, so
  messages are dropped from the embedding and all price dynamics are
  deterministic.
-/

attribute [local semireducible] Rat.add Rat.mul Rat.sub Rat.inv

/-- Truncation toward zero, the semantics of the Python builtin int on a
real value. -/
def pyint (q : ℚ) : ℤ := if q < 0 then ⌈q⌉ else ⌊q⌋

/-- Uppercase of a string, character by character, modelling str.upper. -/
def py_upper (s : String) : String := ⟨s.data.map Char.toUpper⟩

/-- Substring test on character lists, modelling the Python operator
needle in hay. -/
def list_contains_sub (needle : List Char) : List Char → Bool
  | [] => needle.isEmpty
  | c :: t => needle.isPrefixOf (c :: t) || list_contains_sub needle t

/-- Substring test on strings, modelling the Python operator needle in hay. -/
def str_contains_sub (hay needle : String) : Bool :=
  list_contains_sub needle.data hay.data

/-- DealStatus enum shared by the negotiation modules of the repository. -/
inductive DealStatus where
  | ONGOING
  | ACCEPTED
  | REJECTED
  | TIMEOUT
deriving DecidableEq

export DealStatus (ONGOING ACCEPTED REJECTED TIMEOUT)

namespace AiNeg

/-- Product record of Ai_negotiation.py (the free-form attribute bag is
omitted: the pricing logic never reads it). -/
structure Product where
  name : String
  category : String
  quantity : ℤ
  quality_grade : String
  origin : String
  base_market_price : ℤ
deriving DecidableEq

/-- NegotiationContext of Ai_negotiation.py, without the message list
(messages never influence prices). -/
structure NegotiationContext where
  product : Product
  your_budget : ℤ
  current_round : ℤ
  seller_offers : List ℤ
  your_offers : List ℤ
deriving DecidableEq

/-- Private state of YourBuyerAgent (the dictionary built by init of the
buyer state). -/
structure BuyerState where
  seller_history : List ℤ
  seller_min_est : Option ℤ
  times_seen : ℤ
deriving DecidableEq

def MIN_STEP : ℤ := 1000

def FAR_STEP_RATIO : ℚ := 8/100

def CLOSE_STEP_RATIO : ℚ := 3/100

def ESTIMATE_DECAY : ℚ := 80/100

/-- YourBuyerAgent update of the seller model: seed the estimate at
0.9 times the first observed seller price, afterwards blend the old
estimate with 0.85 times the latest price using the decay 0.80. -/
def update_seller_model (st : BuyerState) (seller_price : ℤ) : BuyerState :=
  let st1 : BuyerState :=
    { st with
      times_seen := st.times_seen + 1
      seller_history := st.seller_history ++ [seller_price] }
  match st1.seller_min_est with
  | none =>
      { st1 with seller_min_est := some (pyint ((seller_price : ℚ) * (9/10))) }
  | some e =>
      let candidate : ℤ := pyint ((seller_price : ℚ) * (85/100))
      { st1 with
        seller_min_est :=
          some (pyint (ESTIMATE_DECAY * (e : ℚ) + (1 - ESTIMATE_DECAY) * (candidate : ℚ))) }

/-- Quality dependent opening fraction of YourBuyerAgent. -/
def quality_opening_multiplier (grade : String) : ℚ :=
  let g := py_upper grade
  if str_contains_sub g "EXPORT" then 82/100
  else if g = "A" then 80/100
  else if g = "B" then 76/100
  else 78/100

/-- Quality dependent walkaway fraction of YourBuyerAgent. -/
def quality_walkaway_multiplier (grade : String) : ℚ :=
  let g := py_upper grade
  if str_contains_sub g "EXPORT" then 96/100
  else if g = "A" then 94/100
  else if g = "B" then 90/100
  else 92/100

/-- Opening and walkaway bounds of YourBuyerAgent, both clamped to the
budget, and the opening further clamped to the walkaway. -/
def bounds (ctx : NegotiationContext) : ℤ × ℤ :=
  let market := ctx.product.base_market_price
  let opening := pyint ((market : ℚ) * quality_opening_multiplier ctx.product.quality_grade)
  let walkaway := pyint ((market : ℚ) * quality_walkaway_multiplier ctx.product.quality_grade)
  let opening2 := min opening ctx.your_budget
  let walkaway2 := min walkaway ctx.your_budget
  (min opening2 walkaway2, walkaway2)

/-- Opening offer of YourBuyerAgent: the opening bound (message text
dropped). -/
def generate_opening_offer (ctx : NegotiationContext) : ℤ :=
  (bounds ctx).1

/-- Round based buyer target: interpolation from the opening bound to the
walkaway bound, with the easing value supplied by eased_fn (the float
power progress ** 1.2 of the source). -/
def round_target (eased_fn : ℤ → ℚ) (ctx : NegotiationContext) : ℤ :=
  let ow := bounds ctx
  let rnd := max 1 (min 10 ctx.current_round)
  pyint ((ow.1 : ℚ) + ((ow.2 : ℚ) - (ow.1 : ℚ)) * eased_fn rnd)

/-- Last own offer of the buyer read by the response logic: the last
recorded own offer, or the opening bound when no own offer exists yet. -/
def last_own (ctx : NegotiationContext) : ℤ :=
  match ctx.your_offers.getLast? with
  | some v => v
  | none => (bounds ctx).1

/-- Main decision function of YourBuyerAgent, returning the deal status,
the price and the updated private state. -/
def respond_to_seller_offer (eased_fn : ℤ → ℚ) (st : BuyerState)
    (ctx : NegotiationContext) (seller_price : Option ℤ) :
    DealStatus × ℤ × BuyerState :=
  let st2 := match seller_price with
    | some p => update_seller_model st p
    | none => st
  let ow := bounds ctx
  let opening := ow.1
  let walkaway := ow.2
  let last_my : ℤ := last_own ctx
  let target := round_target eased_fn ctx
  match seller_price with
  | none =>
      let proposed := max (min ctx.your_budget (pyint ((last_my : ℚ) * (105/100)))) opening
      (ONGOING, proposed, st2)
  | some sp =>
      if 10 ≤ ctx.current_round ∧ sp ≤ ctx.your_budget then
        (ACCEPTED, sp, st2)
      else if sp ≤ target ∧ sp ≤ ctx.your_budget then
        (ACCEPTED, sp, st2)
      else
        let pct_gap : ℚ := ((sp : ℚ) - (last_my : ℚ)) / ((max 1 last_my : ℤ) : ℚ)
        let market := ctx.product.base_market_price
        let market_far_step := pyint (max (MIN_STEP : ℚ) ((market : ℚ) * FAR_STEP_RATIO))
        let market_close_step := pyint (max (MIN_STEP : ℚ) ((market : ℚ) * CLOSE_STEP_RATIO))
        let step :=
          if 12/100 < pct_gap then market_far_step
          else if 4/100 < pct_gap then pyint (((market_far_step : ℚ) + (market_close_step : ℚ)) / 2)
          else market_close_step
        let proposed0 :=
          if last_my < sp then
            min ctx.your_budget (last_my + max step (pyint (((sp : ℚ) - (last_my : ℚ)) * (1/2))))
          else
            max opening (min ctx.your_budget (sp - MIN_STEP))
        let proposed1 := max proposed0 (max opening last_my)
        let proposed2 := min proposed1 (min ctx.your_budget walkaway)
        let proposed3 :=
          if proposed2 = last_my ∧ proposed2 + MIN_STEP ≤ ctx.your_budget then
            proposed2 + MIN_STEP
          else proposed2
        let counter : DealStatus × ℤ × BuyerState := (ONGOING, proposed3, st2)
        match st2.seller_min_est with
        | some est_min =>
            if 8 ≤ ctx.current_round ∧ sp ≤ max est_min walkaway ∧ sp ≤ ctx.your_budget then
              (ACCEPTED, sp, st2)
            else counter
        | none => counter

/-- Strategy enum of AdvancedSellerAgent. -/
inductive Strategy where
  | aggressive
  | conservative
  | balanced
deriving DecidableEq

/-- Opening price multiplier of AdvancedSellerAgent per strategy. -/
def opening_multiplier : Strategy → ℚ
  | .aggressive => 18/10
  | .conservative => 13/10
  | .balanced => 15/10

/-- Acceptance profit threshold of AdvancedSellerAgent per strategy. -/
def accept_threshold : Strategy → ℚ
  | .aggressive => 15/100
  | .conservative => 5/100
  | .balanced => 10/100

/-- Concession rate of AdvancedSellerAgent per strategy. -/
def concession_rate : Strategy → ℚ
  | .aggressive => 8/100
  | .conservative => 12/100
  | .balanced => 10/100

/-- Opening price of AdvancedSellerAgent (message text dropped). -/
def get_opening_price (strat : Strategy) (product : Product) : ℤ :=
  pyint ((product.base_market_price : ℚ) * opening_multiplier strat)

/-- Response of AdvancedSellerAgent to a buyer offer: the returned pair is
the price and the acceptance flag. -/
def respond_to_buyer (min_price : ℤ) (strat : Strategy)
    (buyer_offer : ℤ) (round_num : ℤ) : ℤ × Bool :=
  let profit_margin : ℚ := ((buyer_offer : ℚ) - (min_price : ℚ)) / (min_price : ℚ)
  if accept_threshold strat ≤ profit_margin ∨ (8 ≤ round_num ∧ min_price ≤ buyer_offer) then
    (buyer_offer, true)
  else if 9 ≤ round_num then
    (max min_price (pyint ((buyer_offer : ℚ) * (102/100))), false)
  else if 7 ≤ round_num then
    (max min_price (pyint ((buyer_offer : ℚ) * (1 + concession_rate strat / 2))), false)
  else
    (max min_price (pyint ((buyer_offer : ℚ) * (1 + concession_rate strat))), false)

/-- Duck typed seller interface consumed by ConversationManager: an
opening price from the product and a response to a buyer offer at a
round. -/
structure SellerIface where
  opening_price : Product → ℤ
  respond : ℤ → ℤ → ℤ × Bool

/-- AdvancedSellerAgent packaged as the seller interface. -/
def advanced_seller (min_price : ℤ) (strat : Strategy) : SellerIface :=
  { opening_price := get_opening_price strat
    respond := respond_to_buyer min_price strat }

/-- Configuration of one ConversationManager session. -/
structure ManagerCfg where
  product : Product
  buyer_budget : ℤ
  seller : SellerIface
  eased_fn : ℤ → ℚ

/-- Mutable fields of ConversationManager (transcript text dropped,
offer ledgers kept). -/
structure ManagerState where
  round_number : ℤ
  deal_status : DealStatus
  final_price : Option ℤ
  seller_offers : List ℤ
  your_offers : List ℤ
  buyer : BuyerState
deriving DecidableEq

/-- Turn recording for a seller price: appended to the ledger only when
truthy, exactly as the add turn helper of the source. -/
def add_seller_turn (s : ManagerState) (p : ℤ) : ManagerState :=
  if p ≠ 0 then { s with seller_offers := s.seller_offers ++ [p] } else s

/-- Turn recording for a buyer price: appended to the ledger only when
truthy. -/
def add_buyer_turn (s : ManagerState) (p : ℤ) : ManagerState :=
  if p ≠ 0 then { s with your_offers := s.your_offers ++ [p] } else s

/-- Context snapshot handed to the buyer agent. -/
def mk_context (cfg : ManagerCfg) (s : ManagerState) : NegotiationContext :=
  { product := cfg.product
    your_budget := cfg.buyer_budget
    current_round := s.round_number
    seller_offers := s.seller_offers
    your_offers := s.your_offers }

/-- Buyer phase of one loop iteration: round one always produces the
buyer opening offer with status Ongoing, later rounds call the buyer
response with the last seller price. -/
def buyer_move (cfg : ManagerCfg) (s : ManagerState) : DealStatus × ℤ × BuyerState :=
  if s.round_number = 1 then
    (ONGOING, generate_opening_offer (mk_context cfg s), s.buyer)
  else
    respond_to_seller_offer cfg.eased_fn s.buyer (mk_context cfg s) s.seller_offers.getLast?

/-- One iteration of the negotiation loop of start conversation: bump the
round, run the buyer, then, unless the buyer accepted, run the seller. -/
def loop_iter (cfg : ManagerCfg) (s : ManagerState) : ManagerState :=
  let s0 := { s with round_number := s.round_number + 1 }
  let bm := buyer_move cfg s0
  let status := bm.1
  let buyer_offer := bm.2.1
  let s1 := { s0 with buyer := bm.2.2, deal_status := status }
  let s2 := add_buyer_turn s1 buyer_offer
  if status = ACCEPTED then
    { s2 with
      final_price :=
        some (match s2.seller_offers.getLast? with
              | some v => v
              | none => buyer_offer) }
  else
    let sr := cfg.seller.respond buyer_offer s2.round_number
    if sr.2 then
      add_seller_turn
        { s2 with deal_status := ACCEPTED, final_price := some buyer_offer } sr.1
    else
      add_seller_turn s2 sr.1

/-- Fuel indexed version of the while loop of start conversation. The
guard matches the source: the loop body runs only while the deal is
ongoing and fewer than ten rounds have been played; the round number
grows by one every iteration, so ten units of fuel are exactly the
iterations the while loop can perform from round zero. -/
def loop (cfg : ManagerCfg) : ℕ → ManagerState → ManagerState
  | 0, s => s
  | Nat.succ n, s =>
      if s.deal_status = ONGOING ∧ s.round_number < 10 then
        loop cfg n (loop_iter cfg s)
      else s

/-- Initial manager state with the seller opening already recorded. -/
def init_state (cfg : ManagerCfg) : ManagerState :=
  add_seller_turn
    { round_number := 0
      deal_status := ONGOING
      final_price := none
      seller_offers := []
      your_offers := []
      buyer := { seller_history := [], seller_min_est := none, times_seen := 0 } }
    (cfg.seller.opening_price cfg.product)

/-- Full run of start conversation: seller opening, the bounded loop, and
the timeout conversion when the loop ends with the deal still ongoing. -/
def start_conversation (cfg : ManagerCfg) : ManagerState :=
  let s := loop cfg 10 (init_state cfg)
  if s.deal_status = ONGOING then { s with deal_status := TIMEOUT } else s

end AiNeg


namespace BB

/-- Opening offer of the template buyer in bb.py: 25 percent below the
market price, clamped to the budget. -/
def generate_opening_offer (ctx : AiNeg.NegotiationContext) : ℤ :=
  min (pyint ((ctx.product.base_market_price : ℚ) * (75/100))) ctx.your_budget

end BB

namespace NegAgent

/-- Product record of negotiation_agent.py, which also carries the seller
minimum price. -/
structure Product where
  name : String
  category : String
  quantity : ℤ
  quality_grade : String
  origin : String
  base_market_price : ℤ
  seller_min_price : ℤ
deriving DecidableEq

/-- One entry of the conversation history of negotiation_agent.py.
Human entries carry the offer key, seller entries the price key; the
message and timestamp strings are dropped (never read by the logic). -/
structure HistEntry where
  role : String
  offer : Option ℤ
  price : Option ℤ
deriving DecidableEq

/-- NegotiationState of negotiation_agent.py. Wall clock instants are
modelled as rationals. -/
structure NegotiationState where
  product : Product
  human_budget : ℤ
  seller_current_price : ℤ
  human_current_offer : ℤ
  round_number : ℤ
  start_time : ℚ
  time_limit : ℚ
  conversation_history : List HistEntry
  deal_closed : Bool
  final_price : Option ℤ
  winner : Option String
deriving DecidableEq

/-- Numeric and flag fields of an AISellerPersonality (catchphrases
dropped). -/
structure Personality where
  name : String
  opening_multiplier : ℚ
  min_concession : ℚ
  max_concession : ℚ
  timeout_pressure : Bool
deriving DecidableEq

def AGGRESSIVE : Personality :=
  { name := "Aggressive Dealer"
    opening_multiplier := 16/10
    min_concession := 2/100
    max_concession := 8/100
    timeout_pressure := true }

def DIPLOMATIC : Personality :=
  { name := "Diplomatic Trader"
    opening_multiplier := 14/10
    min_concession := 3/100
    max_concession := 12/100
    timeout_pressure := false }

def CUNNING : Personality :=
  { name := "Cunning Merchant"
    opening_multiplier := 15/10
    min_concession := 1/100
    max_concession := 15/100
    timeout_pressure := true }

/-- Opening offer of AISellerAgent (message text dropped). -/
def get_opening_offer (p : Personality) (product : Product) : ℤ :=
  pyint ((product.base_market_price : ℚ) * p.opening_multiplier)

/-- Response of AISellerAgent to a human offer. The argument now is the
wall clock instant of the call. -/
def respond_to_human_offer (p : Personality) (s : NegotiationState)
    (human_offer : ℤ) (now : ℚ) : DealStatus × ℤ :=
  let time_remaining := s.time_limit - (now - s.start_time)
  if (s.product.seller_min_price : ℚ) * (105/100) ≤ (human_offer : ℚ) then
    (ACCEPTED, human_offer)
  else if time_remaining < 30 then
    if s.product.seller_min_price ≤ human_offer then
      (ACCEPTED, human_offer)
    else
      (ONGOING, max s.product.seller_min_price (pyint ((human_offer : ℚ) * (102/100))))
  else
    let current_price := s.seller_current_price
    let gap := current_price - human_offer
    let rate0 : ℚ :=
      if s.round_number ≤ 2 then p.min_concession
      else if 6 ≤ s.round_number then p.max_concession
      else p.min_concession +
        (p.max_concession - p.min_concession) * (((s.round_number : ℚ) - 2) / 4)
    let rate : ℚ :=
      if p.name = "Cunning Merchant" ∧ 2 < s.conversation_history.length then
        let last_human_offers :=
          (s.conversation_history.drop (s.conversation_history.length - 3)).filterMap
            (fun m => if m.role = "human" then m.offer else none)
        match last_human_offers.getLast?, last_human_offers.dropLast.getLast? with
        | some a, some b => if b < a then rate0 * (1/2) else rate0
        | _, _ => rate0
      else rate0
    let concession := pyint ((gap : ℚ) * rate)
    (ONGOING, max s.product.seller_min_price (current_price - concession))

/-- Terminal bookkeeping of BargainingSystem: close the deal, overwrite
the final price with the argument, and set the winner per the result
string. The truthiness test of the source on the optional final price is
encoded as getD 0 being nonzero. -/
def end_negotiation (s : NegotiationState) (result : String) (fp : Option ℤ) :
    NegotiationState :=
  let s1 := { s with deal_closed := true, final_price := fp }
  if result = "deal" ∧ fp.getD 0 ≠ 0 then { s1 with winner := some "human" }
  else if result = "timeout" then { s1 with winner := some "timeout" }
  else if result = "rejected" then { s1 with winner := some "no_deal" }
  else s1

/-- BargainingSystem processing of a human offer. The seller agent is a
duck typed argument; the result is the returned boolean together with the
new optional negotiation state. -/
def human_make_offer (seller_respond : NegotiationState → ℤ → DealStatus × ℤ)
    (sys : Option NegotiationState) (now : ℚ) (offer_amount : ℤ) :
    Bool × Option NegotiationState :=
  match sys with
  | none => (false, none)
  | some s =>
    if s.deal_closed then (false, some s)
    else if s.time_limit ≤ now - s.start_time then
      (false, some (end_negotiation s "timeout" none))
    else if s.human_budget < offer_amount then (false, some s)
    else if offer_amount ≤ 0 then (false, some s)
    else
      let s1 := { s with
        human_current_offer := offer_amount
        round_number := s.round_number + 1
        conversation_history :=
          s.conversation_history ++ [{ role := "human", offer := some offer_amount, price := none }] }
      let r := seller_respond s1 offer_amount
      let s2 := { s1 with
        seller_current_price := r.2
        conversation_history :=
          s1.conversation_history ++ [{ role := "seller", offer := none, price := some r.2 }] }
      if r.1 = ACCEPTED then (true, some (end_negotiation s2 "deal" (some r.2)))
      else (true, some s2)

/-- BargainingSystem acceptance of the current seller offer by the
human. -/
def accept_seller_offer (sys : Option NegotiationState) :
    Bool × Option NegotiationState :=
  match sys with
  | none => (false, none)
  | some s =>
    if s.deal_closed then (false, some s)
    else
      let final_price := s.seller_current_price
      if s.human_budget < final_price then (false, some s)
      else
        let s1 := { s with
          conversation_history :=
            s.conversation_history ++ [{ role := "human", offer := some final_price, price := none }] }
        (true, some (end_negotiation s1 "deal" (some final_price)))

/-- BargainingSystem rejection: note the absence of the deal closed guard
that the two functions above perform. -/
def reject_and_exit (sys : Option NegotiationState) :
    Bool × Option NegotiationState :=
  match sys with
  | none => (false, none)
  | some s => (true, some (end_negotiation s "rejected" none))

end NegAgent

namespace SpecModel

/-- Seed of the opponent floor estimate, written from the spec sentence:
seeded at 0.9 times the first opponent price, integer truncated. Defined
only for comparison with the source embedding. -/
def estimate_seed (p : ℤ) : ℤ :=
  pyint ((9/10 : ℚ) * (p : ℚ))

/-- Update of the opponent floor estimate, written from the spec
sentence: estimate becomes decay times estimate plus one minus decay
times 0.85 times the latest opponent price, with decay 0.80, integer
truncated. Defined only for comparison with the source embedding. -/
def estimate_step (e p : ℤ) : ℤ :=
  pyint ((80/100 : ℚ) * (e : ℚ) + (1 - 80/100 : ℚ) * ((85/100 : ℚ) * (p : ℚ)))

end SpecModel

namespace AiNeg

/-- Concrete product used by witnesses: the Export grade scenario of the
source test harness. -/
def exProduct : Product :=
  { name := "Alphonso Mangoes", category := "Mangoes", quantity := 100
    quality_grade := "Export", origin := "Ratnagiri", base_market_price := 200000 }

def gradeA_200k : Product :=
  { name := "Alphonso Mangoes", category := "Mangoes", quantity := 100
    quality_grade := "A", origin := "Ratnagiri", base_market_price := 200000 }

def gradeA_100k : Product :=
  { name := "Basmati Rice", category := "Grains", quantity := 500
    quality_grade := "A", origin := "Punjab", base_market_price := 100000 }

/-- Duck typed seller whose opening offer is far below the buyer target
and who then always counters at a price far above every budget. -/
def low_opening_seller : SellerIface :=
  { opening_price := fun _ => 100, respond := fun _ _ => (1000000000, false) }

def cex4_cfg : ManagerCfg :=
  { product := exProduct, buyer_budget := 190000
    seller := low_opening_seller, eased_fn := fun _ => 0 }

/-- Context of the round one buyer turn of the cex4 session. -/
def cex4_ctx1 : NegotiationContext :=
  { product := exProduct, your_budget := 190000, current_round := 1
    seller_offers := [100], your_offers := [] }

def std_cfg : ManagerCfg :=
  { product := exProduct, buyer_budget := 190000
    seller := advanced_seller 160000 .balanced, eased_fn := fun _ => 0 }

def cex7_ctx : NegotiationContext :=
  { product := gradeA_200k, your_budget := 150000, current_round := 3
    seller_offers := [300000, 170000], your_offers := [150000] }

def cex7_state : BuyerState :=
  { seller_history := [300000], seller_min_est := some 270000, times_seen := 1 }

def cex10_ctx : NegotiationContext :=
  { product := gradeA_100k, your_budget := 100000, current_round := 6
    seller_offers := [150000, 120000], your_offers := [80000, 95000] }

def cex10_state : BuyerState :=
  { seller_history := [150000], seller_min_est := some 135000, times_seen := 1 }

def wit7_ctx : NegotiationContext :=
  { product := gradeA_200k, your_budget := 190000, current_round := 3
    seller_offers := [300000, 300000], your_offers := [150000] }

def wit7_state : BuyerState :=
  { seller_history := [300000], seller_min_est := some 270000, times_seen := 1 }

end AiNeg

namespace NegAgent

def exProductN : Product :=
  { name := "Alphonso Mangoes", category := "Mangoes", quantity := 100
    quality_grade := "Export", origin := "Ratnagiri", base_market_price := 200000
    seller_min_price := 160000 }

/-- Negotiation state already closed by a successful acceptance. -/
def closed_deal_state : NegotiationState :=
  { product := exProductN, human_budget := 190000, seller_current_price := 170000
    human_current_offer := 165000, round_number := 4, start_time := 0, time_limit := 120
    conversation_history := [], deal_closed := true, final_price := some 170000
    winner := some "human" }

/-- Negotiation state of a freshly started session. -/
def open_state : NegotiationState :=
  { product := exProductN, human_budget := 190000, seller_current_price := 280000
    human_current_offer := 0, round_number := 1, start_time := 0, time_limit := 120
    conversation_history := [], deal_closed := false, final_price := none
    winner := none }

end NegAgent

theorem pyint_eq_floor (q : ℚ) (h : 0 ≤ q) : pyint q = ⌊q⌋ := by
  unfold pyint
  rw [if_neg (not_lt.mpr h)]

namespace AiNeg

theorem bounds_fst_le_budget (ctx : NegotiationContext) : (bounds ctx).1 ≤ ctx.your_budget := by
  unfold bounds
  dsimp only
  omega

theorem bounds_snd_le_budget (ctx : NegotiationContext) : (bounds ctx).2 ≤ ctx.your_budget := by
  unfold bounds
  dsimp only
  omega

theorem bounds_fst_le_snd (ctx : NegotiationContext) : (bounds ctx).1 ≤ (bounds ctx).2 := by
  unfold bounds
  dsimp only
  omega

theorem generate_opening_offer_le_budget (ctx : NegotiationContext) :
    generate_opening_offer ctx ≤ ctx.your_budget :=
  bounds_fst_le_budget ctx

theorem respond_price_le_budget (e : ℤ → ℚ) (st : BuyerState)
    (ctx : NegotiationContext) (sp : Option ℤ) :
    (respond_to_seller_offer e st ctx sp).2.1 ≤ ctx.your_budget := by
  have hb := bounds_fst_le_budget ctx
  have hb2 := bounds_snd_le_budget ctx
  cases sp with
  | none =>
      simp only [respond_to_seller_offer]
      omega
  | some p =>
      simp only [respond_to_seller_offer]
      rcases hm : (update_seller_model st p).seller_min_est with _ | est <;>
        simp only [hm] <;> split_ifs <;> dsimp only <;> omega

theorem respond_status (e : ℤ → ℚ) (st : BuyerState)
    (ctx : NegotiationContext) (sp : Option ℤ) :
    (respond_to_seller_offer e st ctx sp).1 = ONGOING ∨
      (respond_to_seller_offer e st ctx sp).1 = ACCEPTED := by
  cases sp with
  | none => simp [respond_to_seller_offer]
  | some p =>
      simp only [respond_to_seller_offer]
      rcases hm : (update_seller_model st p).seller_min_est with _ | est <;>
        simp only [hm] <;> split_ifs <;> simp

theorem respond_accepted (e : ℤ → ℚ) (st : BuyerState)
    (ctx : NegotiationContext) (sp : Option ℤ)
    (h : (respond_to_seller_offer e st ctx sp).1 = ACCEPTED) :
    sp = some ((respond_to_seller_offer e st ctx sp).2.1) ∧
      (respond_to_seller_offer e st ctx sp).2.1 ≤ ctx.your_budget := by
  cases sp with
  | none => simp [respond_to_seller_offer] at h
  | some p =>
      simp only [respond_to_seller_offer] at h ⊢
      rcases hm : (update_seller_model st p).seller_min_est with _ | est <;>
        simp only [hm] at h ⊢ <;> split_ifs at h ⊢ <;> simp_all

theorem accept_threshold_pos (strat : Strategy) : 0 < accept_threshold strat := by
  cases strat <;> norm_num [accept_threshold]

theorem respond_to_buyer_cases (min_price : ℤ) (strat : Strategy) (b r : ℤ) :
    (respond_to_buyer min_price strat b r = (b, true) ∧
        (accept_threshold strat ≤ ((b : ℚ) - (min_price : ℚ)) / (min_price : ℚ) ∨
          (8 ≤ r ∧ min_price ≤ b)))
    ∨ ((respond_to_buyer min_price strat b r).2 = false ∧
        ∃ x, (respond_to_buyer min_price strat b r).1 = max min_price x) := by
  simp only [respond_to_buyer]
  split_ifs with h1 h2 h3
  · exact Or.inl ⟨rfl, h1⟩
  · exact Or.inr ⟨rfl, _, rfl⟩
  · exact Or.inr ⟨rfl, _, rfl⟩
  · exact Or.inr ⟨rfl, _, rfl⟩

theorem respond_to_buyer_accepted (min_price : ℤ) (strat : Strategy) (b r : ℤ)
    (hm : 0 < min_price) (h : (respond_to_buyer min_price strat b r).2 = true) :
    min_price ≤ b ∧ (respond_to_buyer min_price strat b r).1 = b := by
  rcases respond_to_buyer_cases min_price strat b r with ⟨heq, hc⟩ | ⟨hf, _⟩
  · refine ⟨?_, by rw [heq]⟩
    rcases hc with hthr | hb8
    · have ht := accept_threshold_pos strat
      have hmq : (0 : ℚ) < (min_price : ℚ) := by exact_mod_cast hm
      have h2 := (le_div_iff₀ hmq).mp hthr
      have h3 : (min_price : ℚ) ≤ (b : ℚ) := by nlinarith
      exact_mod_cast h3
    · exact hb8.2
  · rw [hf] at h
    exact absurd h (by simp)

theorem respond_to_buyer_counter_ge (min_price : ℤ) (strat : Strategy) (b r : ℤ)
    (h : (respond_to_buyer min_price strat b r).2 = false) :
    min_price ≤ (respond_to_buyer min_price strat b r).1 := by
  rcases respond_to_buyer_cases min_price strat b r with ⟨heq, hc⟩ | ⟨hf, x, hx⟩
  · rw [heq] at h
    exact absurd h (by simp)
  · rw [hx]
    exact le_max_left _ _

theorem add_buyer_turn_round (s : ManagerState) (p : ℤ) :
    (add_buyer_turn s p).round_number = s.round_number := by
  unfold add_buyer_turn
  split <;> rfl

theorem add_buyer_turn_status (s : ManagerState) (p : ℤ) :
    (add_buyer_turn s p).deal_status = s.deal_status := by
  unfold add_buyer_turn
  split <;> rfl

theorem add_buyer_turn_final (s : ManagerState) (p : ℤ) :
    (add_buyer_turn s p).final_price = s.final_price := by
  unfold add_buyer_turn
  split <;> rfl

theorem add_buyer_turn_sellers (s : ManagerState) (p : ℤ) :
    (add_buyer_turn s p).seller_offers = s.seller_offers := by
  unfold add_buyer_turn
  split <;> rfl

theorem add_seller_turn_round (s : ManagerState) (p : ℤ) :
    (add_seller_turn s p).round_number = s.round_number := by
  unfold add_seller_turn
  split <;> rfl

theorem add_seller_turn_status (s : ManagerState) (p : ℤ) :
    (add_seller_turn s p).deal_status = s.deal_status := by
  unfold add_seller_turn
  split <;> rfl

theorem add_seller_turn_final (s : ManagerState) (p : ℤ) :
    (add_seller_turn s p).final_price = s.final_price := by
  unfold add_seller_turn
  split <;> rfl

theorem add_seller_turn_getLast (s : ManagerState) (p : ℤ) (hp : p ≠ 0) :
    (add_seller_turn s p).seller_offers.getLast? = some p := by
  unfold add_seller_turn
  rw [if_pos hp]
  exact List.getLast?_concat _

theorem buyer_move_eq_r1 (cfg : ManagerCfg) (s : ManagerState) (h : s.round_number = 1) :
    buyer_move cfg s = (ONGOING, generate_opening_offer (mk_context cfg s), s.buyer) := by
  rw [buyer_move, if_pos h]

theorem buyer_move_eq_later (cfg : ManagerCfg) (s : ManagerState) (h : ¬ s.round_number = 1) :
    buyer_move cfg s =
      respond_to_seller_offer cfg.eased_fn s.buyer (mk_context cfg s) s.seller_offers.getLast? := by
  rw [buyer_move, if_neg h]

theorem buyer_move_le_budget (cfg : ManagerCfg) (s : ManagerState) :
    (buyer_move cfg s).2.1 ≤ cfg.buyer_budget := by
  by_cases h : s.round_number = 1
  · rw [buyer_move_eq_r1 cfg s h]
    exact generate_opening_offer_le_budget (mk_context cfg s)
  · rw [buyer_move_eq_later cfg s h]
    exact respond_price_le_budget _ _ _ _

theorem buyer_move_status (cfg : ManagerCfg) (s : ManagerState) :
    (buyer_move cfg s).1 = ONGOING ∨ (buyer_move cfg s).1 = ACCEPTED := by
  by_cases h : s.round_number = 1
  · rw [buyer_move_eq_r1 cfg s h]
    exact Or.inl rfl
  · rw [buyer_move_eq_later cfg s h]
    exact respond_status _ _ _ _

theorem buyer_move_accepted (cfg : ManagerCfg) (s : ManagerState)
    (h : (buyer_move cfg s).1 = ACCEPTED) :
    ¬ s.round_number = 1 ∧
      s.seller_offers.getLast? = some ((buyer_move cfg s).2.1) ∧
      (buyer_move cfg s).2.1 ≤ cfg.buyer_budget := by
  by_cases hr : s.round_number = 1
  · rw [buyer_move_eq_r1 cfg s hr] at h
    exact absurd h (by simp)
  · rw [buyer_move_eq_later cfg s hr] at h ⊢
    exact ⟨hr, (respond_accepted _ _ _ _ h).1, (respond_accepted _ _ _ _ h).2⟩

/-- Invariant carried through the conversation loop when the seller is
AdvancedSellerAgent: the round is nonnegative, an accepted state records
a final price between the seller minimum and the budget, and an ongoing
state after round one has a last recorded seller offer at least the
seller minimum. -/
def price_inv (m B : ℤ) (s : ManagerState) : Prop :=
  0 ≤ s.round_number ∧
  (s.deal_status = ACCEPTED → ∃ p, s.final_price = some p ∧ m ≤ p ∧ p ≤ B) ∧
  (s.deal_status = ONGOING → 1 ≤ s.round_number →
    ∃ v, s.seller_offers.getLast? = some v ∧ m ≤ v)

theorem loop_iter_price_inv (pd : Product) (B m : ℤ) (strat : Strategy) (e : ℤ → ℚ)
    (s : ManagerState) (hm : 0 < m) (hs : s.deal_status = ONGOING)
    (hinv : price_inv m B s) :
    price_inv m B (loop_iter ⟨pd, B, advanced_seller m strat, e⟩ s) := by
  obtain ⟨hr0, -, hong⟩ := hinv
  set cfg : ManagerCfg := ⟨pd, B, advanced_seller m strat, e⟩ with hcfg
  set s0 : ManagerState := { s with round_number := s.round_number + 1 } with hs0def
  have hbud : (buyer_move cfg s0).2.1 ≤ B := buyer_move_le_budget cfg s0
  have hstat := buyer_move_status cfg s0
  simp only [loop_iter]
  rw [← hs0def]
  by_cases hacc : (buyer_move cfg s0).1 = ACCEPTED
  · rw [if_pos hacc]
    obtain ⟨hr1, hlast, -⟩ := buyer_move_accepted cfg s0 hacc
    have hrs0 : s0.round_number = s.round_number + 1 := rfl
    have hs1 : 1 ≤ s.round_number := by
      rw [hrs0] at hr1
      omega
    obtain ⟨v, hv, hmv⟩ := hong hs hs1
    have hvs : s0.seller_offers.getLast? = s.seller_offers.getLast? := rfl
    rw [hvs, hv] at hlast
    have hbo : (buyer_move cfg s0).2.1 = v := by
      exact (Option.some_inj.mp hlast).symm
    refine ⟨?_, ?_, ?_⟩
    · simp [add_buyer_turn_round]
      omega
    · intro _
      refine ⟨v, ?_, hmv, ?_⟩
      · simp only [add_buyer_turn_sellers]
        have : s0.seller_offers.getLast? = some v := by rw [hvs, hv]
        simp only [this]
      · rw [← hbo]
        exact hbud
    · intro habs
      rw [add_buyer_turn_status] at habs
      rw [hacc] at habs
      simp at habs
  · rw [if_neg hacc]
    have hong2 : (buyer_move cfg s0).1 = ONGOING := hstat.resolve_right hacc
    have hresp : cfg.seller.respond = respond_to_buyer m strat := rfl
    rw [hresp]
    split
    next hsr =>
      obtain ⟨hmb, -⟩ := respond_to_buyer_accepted _ _ _ _ hm hsr
      refine ⟨?_, ?_, ?_⟩
      · simp [add_seller_turn_round, add_buyer_turn_round]
        omega
      · intro _
        refine ⟨(buyer_move cfg s0).2.1, ?_, hmb, hbud⟩
        rw [add_seller_turn_final]
      · intro habs
        rw [add_seller_turn_status] at habs
        simp at habs
    next hsr =>
      simp only [Bool.not_eq_true] at hsr
      have hcge := respond_to_buyer_counter_ge _ _ _ _ hsr
      refine ⟨?_, ?_, ?_⟩
      · simp [add_seller_turn_round, add_buyer_turn_round]
        omega
      · intro habs
        rw [add_seller_turn_status, add_buyer_turn_status] at habs
        simp only [hong2] at habs
        simp at habs
      · intro _ _
        refine ⟨_, add_seller_turn_getLast _ _ (by omega), hcge⟩

theorem loop_price_inv (pd : Product) (B m : ℤ) (strat : Strategy) (e : ℤ → ℚ)
    (hm : 0 < m) :
    ∀ (n : ℕ) (s : ManagerState), price_inv m B s →
      price_inv m B (loop ⟨pd, B, advanced_seller m strat, e⟩ n s) := by
  intro n
  induction n with
  | zero => intro s h; exact h
  | succ k ih =>
      intro s h
      simp only [loop]
      split
      next hg => exact ih _ (loop_iter_price_inv pd B m strat e s hm hg.1 h)
      next => exact h

theorem init_state_round (cfg : ManagerCfg) : (init_state cfg).round_number = 0 := by
  rw [init_state, add_seller_turn_round]

theorem init_state_status (cfg : ManagerCfg) : (init_state cfg).deal_status = ONGOING := by
  rw [init_state, add_seller_turn_status]

theorem init_state_final (cfg : ManagerCfg) : (init_state cfg).final_price = none := by
  rw [init_state, add_seller_turn_final]

theorem init_state_price_inv (m B : ℤ) (cfg : ManagerCfg) : price_inv m B (init_state cfg) := by
  refine ⟨?_, ?_, ?_⟩
  · rw [init_state_round]
  · intro h
    rw [init_state_status] at h
    simp at h
  · intro _ h1
    rw [init_state_round] at h1
    omega

theorem loop_iter_round_succ (cfg : ManagerCfg) (s : ManagerState) :
    (loop_iter cfg s).round_number = s.round_number + 1 := by
  simp only [loop_iter]
  split
  · simp [add_buyer_turn_round]
  · split
    · simp [add_seller_turn_round, add_buyer_turn_round]
    · simp [add_seller_turn_round, add_buyer_turn_round]

theorem loop_round_mono (cfg : ManagerCfg) :
    ∀ (n : ℕ) (s : ManagerState), s.round_number ≤ (loop cfg n s).round_number := by
  intro n
  induction n with
  | zero => intro s; simp [loop]
  | succ k ih =>
      intro s
      simp only [loop]
      split
      · have h2 := ih (loop_iter cfg s)
        have h3 := loop_iter_round_succ cfg s
        omega
      · exact le_refl _

theorem loop_round_le_ten (cfg : ManagerCfg) :
    ∀ (n : ℕ) (s : ManagerState), s.round_number ≤ 10 →
      (loop cfg n s).round_number ≤ 10 := by
  intro n
  induction n with
  | zero => intro s h; simpa [loop] using h
  | succ k ih =>
      intro s h
      simp only [loop]
      split
      next hg =>
        refine ih _ ?_
        have h3 := loop_iter_round_succ cfg s
        omega
      next => exact h

theorem loop_iter_status_ok (cfg : ManagerCfg) (s : ManagerState) :
    (loop_iter cfg s).deal_status = ONGOING ∨ (loop_iter cfg s).deal_status = ACCEPTED := by
  have hst := buyer_move_status cfg { s with round_number := s.round_number + 1 }
  simp only [loop_iter]
  split
  next hacc =>
    right
    simpa [add_buyer_turn_status] using hacc
  next hacc =>
    split
    · right
      simp [add_seller_turn_status]
    · rw [add_seller_turn_status, add_buyer_turn_status]
      simpa using hst

theorem loop_status_ok (cfg : ManagerCfg) :
    ∀ (n : ℕ) (s : ManagerState),
      (s.deal_status = ONGOING ∨ s.deal_status = ACCEPTED) →
      ((loop cfg n s).deal_status = ONGOING ∨ (loop cfg n s).deal_status = ACCEPTED) := by
  intro n
  induction n with
  | zero => intro s h; exact h
  | succ k ih =>
      intro s h
      simp only [loop]
      split
      next hg => exact ih _ (loop_iter_status_ok cfg s)
      next => exact h

theorem start_conversation_status (cfg : ManagerCfg) :
    (start_conversation cfg).deal_status = ACCEPTED ∨
      (start_conversation cfg).deal_status = TIMEOUT := by
  have hloop := loop_status_ok cfg 10 (init_state cfg) (Or.inl (init_state_status cfg))
  simp only [start_conversation]
  by_cases hON : (loop cfg 10 (init_state cfg)).deal_status = ONGOING
  · right
    rw [if_pos hON]
  · left
    rw [if_neg hON]
    exact hloop.resolve_left hON

/-- Invariant used when the budget is strictly below the seller minimum:
the deal stays ongoing with no final price, and after round one the last
recorded seller offer is at least the seller minimum. -/
def never_accept_inv (m B : ℤ) (s : ManagerState) : Prop :=
  s.deal_status = ONGOING ∧ s.final_price = none ∧ 0 ≤ s.round_number ∧
  (1 ≤ s.round_number → ∃ v, s.seller_offers.getLast? = some v ∧ m ≤ v)

theorem loop_iter_never (pd : Product) (B m : ℤ) (strat : Strategy) (e : ℤ → ℚ)
    (s : ManagerState) (hm : 0 < m) (hB : B < m)
    (hinv : never_accept_inv m B s) :
    never_accept_inv m B (loop_iter ⟨pd, B, advanced_seller m strat, e⟩ s) := by
  obtain ⟨hs, hfp, hr0, hong⟩ := hinv
  set cfg : ManagerCfg := ⟨pd, B, advanced_seller m strat, e⟩ with hcfg
  set s0 : ManagerState := { s with round_number := s.round_number + 1 } with hs0def
  have hbud : (buyer_move cfg s0).2.1 ≤ B := buyer_move_le_budget cfg s0
  have hstat := buyer_move_status cfg s0
  have hrs0 : s0.round_number = s.round_number + 1 := rfl
  have hnacc : ¬ (buyer_move cfg s0).1 = ACCEPTED := by
    intro hacc
    obtain ⟨hr1, hlast, hble⟩ := buyer_move_accepted cfg s0 hacc
    have hs1 : 1 ≤ s.round_number := by omega
    obtain ⟨v, hv, hmv⟩ := hong hs1
    have hvs : s0.seller_offers.getLast? = s.seller_offers.getLast? := rfl
    rw [hvs, hv] at hlast
    have hbo : (buyer_move cfg s0).2.1 = v := (Option.some_inj.mp hlast).symm
    omega
  have hong2 : (buyer_move cfg s0).1 = ONGOING := hstat.resolve_right hnacc
  simp only [loop_iter]
  rw [← hs0def]
  rw [if_neg hnacc]
  have hresp : cfg.seller.respond = respond_to_buyer m strat := rfl
  rw [hresp]
  split
  next hsr =>
    obtain ⟨hmb, -⟩ := respond_to_buyer_accepted _ _ _ _ hm hsr
    exact absurd hmb (by omega)
  next hsr =>
    simp only [Bool.not_eq_true] at hsr
    have hcge := respond_to_buyer_counter_ge _ _ _ _ hsr
    refine ⟨?_, ?_, ?_, ?_⟩
    · rw [add_seller_turn_status, add_buyer_turn_status]
      simpa using hong2
    · rw [add_seller_turn_final, add_buyer_turn_final]
      simpa using hfp
    · rw [add_seller_turn_round, add_buyer_turn_round]
      simp
      omega
    · intro _
      exact ⟨_, add_seller_turn_getLast _ _ (by omega), hcge⟩

theorem loop_never (pd : Product) (B m : ℤ) (strat : Strategy) (e : ℤ → ℚ)
    (hm : 0 < m) (hB : B < m) :
    ∀ (n : ℕ) (s : ManagerState), never_accept_inv m B s →
      never_accept_inv m B (loop ⟨pd, B, advanced_seller m strat, e⟩ n s) := by
  intro n
  induction n with
  | zero => intro s h; exact h
  | succ k ih =>
      intro s h
      simp only [loop]
      split
      next hg => exact ih _ (loop_iter_never pd B m strat e s hm hB h)
      next => exact h

end AiNeg

theorem pyint_mono_nonneg (a b : ℚ) (ha : 0 ≤ a) (hab : a ≤ b) : pyint a ≤ pyint b := by
  unfold pyint
  rw [if_neg (not_lt.mpr ha), if_neg (not_lt.mpr (le_trans ha hab))]
  exact Int.floor_le_floor hab

namespace AiNeg

theorem quality_opening_le_walkaway (g : String) :
    quality_opening_multiplier g ≤ quality_walkaway_multiplier g := by
  simp only [quality_opening_multiplier, quality_walkaway_multiplier]
  split_ifs <;> norm_num

theorem quality_opening_range (g : String) :
    3/5 ≤ quality_opening_multiplier g ∧ quality_opening_multiplier g ≤ 17/20 ∧
      quality_opening_multiplier g < 1 := by
  simp only [quality_opening_multiplier]
  split_ifs <;> norm_num

theorem est_step_eq (e p : ℤ) (he : 0 ≤ e) (hp : 0 ≤ p) :
    pyint ((80/100 : ℚ) * (e : ℚ) + (1 - 80/100) * ((pyint ((p : ℚ) * (85/100)) : ℤ) : ℚ)) =
      pyint ((80/100 : ℚ) * (e : ℚ) + (1 - 80/100) * ((85/100 : ℚ) * (p : ℚ))) := by
  have hpq : (0 : ℚ) ≤ (p : ℚ) := by exact_mod_cast hp
  have heq : (0 : ℚ) ≤ (e : ℚ) := by exact_mod_cast he
  have hc0 : (0 : ℚ) ≤ (p : ℚ) * (85/100) := by nlinarith
  rw [pyint_eq_floor _ hc0]
  have hcge : (0 : ℤ) ≤ ⌊(p : ℚ) * (85/100)⌋ := Int.floor_nonneg.mpr hc0
  have hcq : (0 : ℚ) ≤ ((⌊(p : ℚ) * (85/100)⌋ : ℤ) : ℚ) := by exact_mod_cast hcge
  have h1 : (0 : ℚ) ≤ (80/100 : ℚ) * (e : ℚ) + (1 - 80/100) * ((⌊(p : ℚ) * (85/100)⌋ : ℤ) : ℚ) := by
    nlinarith
  have h2 : (0 : ℚ) ≤ (80/100 : ℚ) * (e : ℚ) + (1 - 80/100) * ((85/100 : ℚ) * (p : ℚ)) := by
    nlinarith
  rw [pyint_eq_floor _ h1, pyint_eq_floor _ h2]
  have hcdef : ⌊(p : ℚ) * (85/100)⌋ = 17 * p / 20 := by
    have hx : (p : ℚ) * (85/100) = ((17 * p : ℤ) : ℚ) / ((20 : ℕ) : ℚ) := by
      push_cast
      ring
    rw [hx, Rat.floor_intCast_div_natCast]
    norm_num
  have key1 : (80/100 : ℚ) * (e : ℚ) + (1 - 80/100) * ((⌊(p : ℚ) * (85/100)⌋ : ℤ) : ℚ) =
      ((4 * e + ⌊(p : ℚ) * (85/100)⌋ : ℤ) : ℚ) / ((5 : ℕ) : ℚ) := by
    push_cast
    ring
  have key2 : (80/100 : ℚ) * (e : ℚ) + (1 - 80/100) * ((85/100 : ℚ) * (p : ℚ)) =
      ((80 * e + 17 * p : ℤ) : ℚ) / ((100 : ℕ) : ℚ) := by
    push_cast
    ring
  rw [key1, key2, Rat.floor_intCast_div_natCast, Rat.floor_intCast_div_natCast, hcdef]
  have h20 : ((20 : ℕ) : ℤ) = 20 := rfl
  have h5 : ((5 : ℕ) : ℤ) = 5 := rfl
  have h100 : ((100 : ℕ) : ℤ) = 100 := rfl
  rw [h5, h100]
  omega

end AiNeg

namespace NegAgent

theorem respond_below_floor_not_accepted (p : Personality) (s : NegotiationState)
    (offer : ℤ) (now : ℚ) (hge : 0 ≤ s.product.seller_min_price)
    (hlt : offer < s.product.seller_min_price) :
    (respond_to_human_offer p s offer now).1 ≠ ACCEPTED := by
  simp only [respond_to_human_offer]
  split_ifs with h1 h2 h3
  · exfalso
    have ha : (offer : ℚ) < (s.product.seller_min_price : ℚ) := by exact_mod_cast hlt
    have hb : (0 : ℚ) ≤ (s.product.seller_min_price : ℚ) := by exact_mod_cast hge
    nlinarith
  · exact absurd h3 (by omega)
  all_goals simp

end NegAgent

/-- C1: in every ConversationManager session of YourBuyerAgent against
AdvancedSellerAgent with a positive seller minimum, an Accepted outcome
records a final price p with sellerFloor ≤ p ≤ budget; moreover the buyer
opening and every buyer response price are at most the budget, the seller
accepts only offers at least its minimum, and every seller counter is at
least its minimum. -/
theorem C1_accepted_final_price_bounds
    (pd : AiNeg.Product) (B m : ℤ) (strat : AiNeg.Strategy) (e : ℤ → ℚ)
    (hm : 0 < m) :
    ((AiNeg.start_conversation ⟨pd, B, AiNeg.advanced_seller m strat, e⟩).deal_status = ACCEPTED →
      ∃ p, (AiNeg.start_conversation ⟨pd, B, AiNeg.advanced_seller m strat, e⟩).final_price =
        some p ∧ m ≤ p ∧ p ≤ B) ∧
    (∀ ctx : AiNeg.NegotiationContext, AiNeg.generate_opening_offer ctx ≤ ctx.your_budget) ∧
    (∀ (st : AiNeg.BuyerState) (ctx : AiNeg.NegotiationContext) (sp : Option ℤ),
      (AiNeg.respond_to_seller_offer e st ctx sp).2.1 ≤ ctx.your_budget) ∧
    (∀ b r : ℤ,
      ((AiNeg.respond_to_buyer m strat b r).2 = true → m ≤ b) ∧
      ((AiNeg.respond_to_buyer m strat b r).2 = false →
        m ≤ (AiNeg.respond_to_buyer m strat b r).1)) := by
  refine ⟨?_, AiNeg.generate_opening_offer_le_budget,
    fun st ctx sp => AiNeg.respond_price_le_budget e st ctx sp,
    fun b r => ⟨fun h => (AiNeg.respond_to_buyer_accepted m strat b r hm h).1,
      AiNeg.respond_to_buyer_counter_ge m strat b r⟩⟩
  intro hacc
  have hinv := AiNeg.loop_price_inv pd B m strat e hm 10
    (AiNeg.init_state ⟨pd, B, AiNeg.advanced_seller m strat, e⟩)
    (AiNeg.init_state_price_inv m B _)
  simp only [AiNeg.start_conversation] at hacc ⊢
  by_cases hON :
      (AiNeg.loop ⟨pd, B, AiNeg.advanced_seller m strat, e⟩ 10
        (AiNeg.init_state ⟨pd, B, AiNeg.advanced_seller m strat, e⟩)).deal_status = ONGOING
  · rw [if_pos hON] at hacc
    simp at hacc
  · rw [if_neg hON] at hacc ⊢
    exact hinv.2.1 hacc

/-- C1 witness: the Export grade scenario with market 200000, budget
190000 and seller minimum 160000 ends accepted, so the final price lies
in the interval. -/
theorem C1_accepted_final_price_bounds_witness :
    ∃ p, (AiNeg.start_conversation AiNeg.std_cfg).final_price = some p ∧
      160000 ≤ p ∧ p ≤ 190000 :=
  (C1_accepted_final_price_bounds AiNeg.exProduct 190000 160000 .balanced
    (fun _ => 0) (by norm_num)).1 (by decide)

/-- C2: on an already closed negotiation, human offers and acceptance are
no ops, but reject and exit lacks the closed guard: it reruns the end of
negotiation bookkeeping, erasing the recorded final price and overwriting
the winner, so a terminal state is not absorbing under reject. -/
theorem C2_reject_after_terminal_mutates :
    NegAgent.closed_deal_state.deal_closed = true ∧
    NegAgent.closed_deal_state.final_price = some 170000 ∧
    NegAgent.closed_deal_state.winner = some "human" ∧
    NegAgent.human_make_offer (fun st _ => (ONGOING, st.seller_current_price))
      (some NegAgent.closed_deal_state) 10 165000 = (false, some NegAgent.closed_deal_state) ∧
    NegAgent.accept_seller_offer (some NegAgent.closed_deal_state) =
      (false, some NegAgent.closed_deal_state) ∧
    NegAgent.reject_and_exit (some NegAgent.closed_deal_state) =
      (true, some (NegAgent.end_negotiation NegAgent.closed_deal_state "rejected" none)) ∧
    (NegAgent.end_negotiation NegAgent.closed_deal_state "rejected" none).final_price = none ∧
    (NegAgent.end_negotiation NegAgent.closed_deal_state "rejected" none).winner =
      some "no_deal" ∧
    ¬ NegAgent.end_negotiation NegAgent.closed_deal_state "rejected" none =
      NegAgent.closed_deal_state := by
  decide

/-- C3: when the budget is strictly below the seller minimum, the session
between YourBuyerAgent and AdvancedSellerAgent never produces an
acceptance and ends TimedOut with no final price; likewise AISellerAgent
never accepts an offer strictly below its floor. -/
theorem C3_budget_below_floor_times_out
    (pd : AiNeg.Product) (B m : ℤ) (strat : AiNeg.Strategy) (e : ℤ → ℚ)
    (hm : 0 < m) (hB : B < m) :
    ((AiNeg.start_conversation ⟨pd, B, AiNeg.advanced_seller m strat, e⟩).deal_status = TIMEOUT ∧
      (AiNeg.start_conversation ⟨pd, B, AiNeg.advanced_seller m strat, e⟩).final_price = none) ∧
    (∀ (p : NegAgent.Personality) (s : NegAgent.NegotiationState) (offer : ℤ) (now : ℚ),
      0 ≤ s.product.seller_min_price → offer < s.product.seller_min_price →
      (NegAgent.respond_to_human_offer p s offer now).1 ≠ ACCEPTED) := by
  constructor
  · have hinv := AiNeg.loop_never pd B m strat e hm hB 10
      (AiNeg.init_state ⟨pd, B, AiNeg.advanced_seller m strat, e⟩)
      ⟨AiNeg.init_state_status _, AiNeg.init_state_final _,
        by simp [AiNeg.init_state_round],
        by intro h; rw [AiNeg.init_state_round] at h; omega⟩
    obtain ⟨hst, hfp, -, -⟩ := hinv
    simp only [AiNeg.start_conversation]
    rw [if_pos hst]
    exact ⟨rfl, hfp⟩
  · exact fun p s offer now hge hlt =>
      NegAgent.respond_below_floor_not_accepted p s offer now hge hlt

/-- C3 witness: budget 150000 against seller minimum 160000 times out. -/
theorem C3_budget_below_floor_times_out_witness :
    (AiNeg.start_conversation
      ⟨AiNeg.exProduct, 150000, AiNeg.advanced_seller 160000 .balanced, fun _ => 0⟩).deal_status =
      TIMEOUT :=
  ((C3_budget_below_floor_times_out AiNeg.exProduct 150000 160000 .balanced (fun _ => 0)
    (by norm_num) (by norm_num)).1).1

set_option maxRecDepth 100000 in
/-- C4 counterexample: a duck typed seller opens at 100, far below the
buyer round one target 164000 and within the budget 190000, yet the
session does not end Accepted in round one at that price: it runs all ten
rounds and times out, because the round one buyer turn never evaluates
the seller opening. -/
theorem C4_counterexample :
    AiNeg.cex4_cfg.seller.opening_price AiNeg.cex4_cfg.product = 100 ∧
    100 ≤ AiNeg.round_target (fun _ => 0) AiNeg.cex4_ctx1 ∧
    100 ≤ AiNeg.cex4_ctx1.your_budget ∧
    (AiNeg.start_conversation AiNeg.cex4_cfg).deal_status = TIMEOUT ∧
    (AiNeg.start_conversation AiNeg.cex4_cfg).final_price = none := by
  decide

/-- C4 amended: the round one buyer turn is always the buyer opening
offer with status Ongoing and never evaluates the seller opening; from
any later call, a numeric seller offer at or below the buyer round target
and within the budget is immediately accepted at that seller price. -/
theorem C4_round_one_never_accepts_amended :
    (∀ (cfg : AiNeg.ManagerCfg) (s : AiNeg.ManagerState), s.round_number = 1 →
      AiNeg.buyer_move cfg s =
        (ONGOING, AiNeg.generate_opening_offer (AiNeg.mk_context cfg s), s.buyer)) ∧
    (∀ (e : ℤ → ℚ) (st : AiNeg.BuyerState) (ctx : AiNeg.NegotiationContext) (sp : ℤ),
      sp ≤ AiNeg.round_target e ctx → sp ≤ ctx.your_budget →
      (AiNeg.respond_to_seller_offer e st ctx (some sp)).1 = ACCEPTED ∧
      (AiNeg.respond_to_seller_offer e st ctx (some sp)).2.1 = sp) := by
  refine ⟨AiNeg.buyer_move_eq_r1, ?_⟩
  intro e st ctx sp h1 h2
  simp only [AiNeg.respond_to_seller_offer]
  by_cases ha : 10 ≤ ctx.current_round ∧ sp ≤ ctx.your_budget
  · rw [if_pos ha]
    exact ⟨rfl, rfl⟩
  · rw [if_neg ha, if_pos ⟨h1, h2⟩]
    exact ⟨rfl, rfl⟩

/-- C4 amended witness: at the concrete round one context the seller
price 100 is below the target and budget, and the buyer response accepts
it at that price. -/
theorem C4_round_one_never_accepts_amended_witness :
    (AiNeg.respond_to_seller_offer (fun _ => 0)
      ⟨[], none, 0⟩ AiNeg.cex4_ctx1 (some 100)).1 = ACCEPTED ∧
    (AiNeg.respond_to_seller_offer (fun _ => 0)
      ⟨[], none, 0⟩ AiNeg.cex4_ctx1 (some 100)).2.1 = 100 :=
  C4_round_one_never_accepts_amended.2 (fun _ => 0) ⟨[], none, 0⟩ AiNeg.cex4_ctx1 100
    (by decide) (by decide)

/-- C5: on an open, not yet expired negotiation, a human offer that is
non positive or strictly above the budget is rejected locally: the
processing function returns false and the negotiation state, with its
history, round number, current offers and deal status, is returned
entirely unchanged. -/
theorem C5_invalid_offer_local_noop
    (resp : NegAgent.NegotiationState → ℤ → DealStatus × ℤ)
    (s : NegAgent.NegotiationState) (now : ℚ) (offer : ℤ)
    (hopen : s.deal_closed = false)
    (htime : now - s.start_time < s.time_limit)
    (hbad : offer ≤ 0 ∨ s.human_budget < offer) :
    NegAgent.human_make_offer resp (some s) now offer = (false, some s) := by
  simp only [NegAgent.human_make_offer]
  rw [if_neg (by simp [hopen]), if_neg (not_le.mpr htime)]
  rcases hbad with h | h
  · by_cases hb : s.human_budget < offer
    · rw [if_pos hb]
    · rw [if_neg hb, if_pos h]
  · rw [if_pos h]

/-- C5 witness: a zero offer five seconds into a fresh session is refused
and leaves the state untouched. -/
theorem C5_invalid_offer_local_noop_witness :
    NegAgent.human_make_offer (fun st _ => (ONGOING, st.seller_current_price))
      (some NegAgent.open_state) 5 0 = (false, some NegAgent.open_state) :=
  C5_invalid_offer_local_noop _ _ _ _ (by decide) (by decide) (Or.inl (by norm_num))

/-- C6: every ConversationManager run, for any duck typed seller, ends
with a round number at most ten and a status of Accepted or TimedOut; the
round number never decreases along the loop, and each loop iteration
advances the round by exactly one, so the loop terminates. -/
theorem C6_rounds_bounded_and_terminate (cfg : AiNeg.ManagerCfg) :
    (AiNeg.start_conversation cfg).round_number ≤ 10 ∧
    ((AiNeg.start_conversation cfg).deal_status = ACCEPTED ∨
      (AiNeg.start_conversation cfg).deal_status = TIMEOUT) ∧
    (∀ (n : ℕ) (s : AiNeg.ManagerState),
      s.round_number ≤ (AiNeg.loop cfg n s).round_number) ∧
    (∀ s : AiNeg.ManagerState,
      (AiNeg.loop_iter cfg s).round_number = s.round_number + 1) := by
  have h10 := AiNeg.loop_round_le_ten cfg 10 (AiNeg.init_state cfg)
    (by rw [AiNeg.init_state_round]; norm_num)
  refine ⟨?_, AiNeg.start_conversation_status cfg, AiNeg.loop_round_mono cfg,
    AiNeg.loop_iter_round_succ cfg⟩
  simp only [AiNeg.start_conversation]
  by_cases hON : (AiNeg.loop cfg 10 (AiNeg.init_state cfg)).deal_status = ONGOING
  · rw [if_pos hON]
    exact h10
  · rw [if_neg hON]
    exact h10

/-- C7 counterexample: a budget capped grade A context in which the
clamped counter equals the previous own offer 150000 and the minimum
increment does not fit under the budget: the non accepting response to
the numeric seller price 170000 returns exactly the previous own offer,
so the buyer does repeat its own previous price. -/
theorem C7_counterexample :
    AiNeg.last_own AiNeg.cex7_ctx = 150000 ∧
    (AiNeg.respond_to_seller_offer (fun _ => 0) AiNeg.cex7_state AiNeg.cex7_ctx
      (some 170000)).1 = ONGOING ∧
    (AiNeg.respond_to_seller_offer (fun _ => 0) AiNeg.cex7_state AiNeg.cex7_ctx
      (some 170000)).2.1 = 150000 := by
  decide

/-- C7 amended: the minimum increment is forced only when it still fits
under the budget, so the buyer never repeats its own previous offer
provided that previous offer is at least MIN_STEP below the budget; when
the previous offer is within MIN_STEP of the budget the repeat can
happen, as the counterexample shows. -/
theorem C7_no_repeat_when_increment_fits (e : ℤ → ℚ) (st : AiNeg.BuyerState)
    (ctx : AiNeg.NegotiationContext) (sp : ℤ)
    (hfits : AiNeg.last_own ctx + AiNeg.MIN_STEP ≤ ctx.your_budget)
    (hong : (AiNeg.respond_to_seller_offer e st ctx (some sp)).1 = ONGOING) :
    (AiNeg.respond_to_seller_offer e st ctx (some sp)).2.1 ≠ AiNeg.last_own ctx := by
  simp only [AiNeg.MIN_STEP] at hfits
  simp only [AiNeg.respond_to_seller_offer, AiNeg.MIN_STEP] at hong ⊢
  rcases hm2 : (AiNeg.update_seller_model st sp).seller_min_est with _ | est <;>
    simp only [hm2] at hong ⊢ <;> split_ifs at hong ⊢ <;>
      (dsimp only; omega)

/-- C7 amended witness: with the previous own offer 150000 and budget
190000 the response to the seller price 300000 is ongoing and differs
from the previous own offer. -/
theorem C7_no_repeat_when_increment_fits_witness :
    (AiNeg.respond_to_seller_offer (fun _ => 0) AiNeg.wit7_state AiNeg.wit7_ctx
      (some 300000)).2.1 ≠ AiNeg.last_own AiNeg.wit7_ctx :=
  C7_no_repeat_when_increment_fits (fun _ => 0) AiNeg.wit7_state AiNeg.wit7_ctx 300000
    (by decide) (by decide)

/-- C8: the buyer estimate of the seller minimum follows the spec
recurrence exactly: it is seeded at the truncation of 0.9 times the first
observed seller price, and each later observation maps estimate e and
price p to the truncation of 0.8 e + 0.2 (0.85 p); the truncation of the
code, which truncates 0.85 p before blending, agrees with the single
truncation of the spec formula. -/
theorem C8_estimate_recurrence (st : AiNeg.BuyerState) (p e : ℤ) (hp : 0 ≤ p) :
    (st.seller_min_est = none →
      (AiNeg.update_seller_model st p).seller_min_est =
        some (SpecModel.estimate_seed p)) ∧
    (0 ≤ e → st.seller_min_est = some e →
      (AiNeg.update_seller_model st p).seller_min_est =
        some (SpecModel.estimate_step e p)) := by
  constructor
  · intro h
    simp only [AiNeg.update_seller_model]
    simp only [h]
    rw [SpecModel.estimate_seed, mul_comm]
  · intro he h
    simp only [AiNeg.update_seller_model]
    simp only [h]
    rw [SpecModel.estimate_step]
    simp only [AiNeg.ESTIMATE_DECAY]
    rw [AiNeg.est_step_eq e p he hp]

/-- C8 witness: the seed at price 300000 and one update step at estimate
270000 and price 250000 both match the spec recurrence. -/
theorem C8_estimate_recurrence_witness :
    (0 : ℤ) ≤ 300000 ∧
    (AiNeg.update_seller_model ⟨[], none, 0⟩ 300000).seller_min_est =
      some (SpecModel.estimate_seed 300000) ∧
    (AiNeg.update_seller_model ⟨[300000], some 270000, 1⟩ 250000).seller_min_est =
      some (SpecModel.estimate_step 270000 250000) :=
  ⟨by norm_num,
    (C8_estimate_recurrence ⟨[], none, 0⟩ 300000 0 (by norm_num)).1 rfl,
    (C8_estimate_recurrence ⟨[300000], some 270000, 1⟩ 250000 270000 (by norm_num)).2
      (by norm_num) rfl⟩

/-- C9: for a nonnegative market price the buyer opening offer equals the
market price times a quality dependent fraction, truncated and clamped to
the budget; every fraction lies in the interval from 0.6 to 0.85 and is
strictly below one, and the fractions differ across the grades Export, A
and B; the template buyer of bb.py opens at 0.75 of market, also clamped
to the budget. -/
theorem C9_opening_fraction (ctx : AiNeg.NegotiationContext)
    (hmkt : 0 ≤ ctx.product.base_market_price) :
    AiNeg.generate_opening_offer ctx =
      min (pyint ((ctx.product.base_market_price : ℚ) *
        AiNeg.quality_opening_multiplier ctx.product.quality_grade)) ctx.your_budget ∧
    AiNeg.generate_opening_offer ctx ≤ ctx.your_budget ∧
    (∀ g : String, 3/5 ≤ AiNeg.quality_opening_multiplier g ∧
      AiNeg.quality_opening_multiplier g ≤ 17/20 ∧
      AiNeg.quality_opening_multiplier g < 1) ∧
    AiNeg.quality_opening_multiplier "Export" = 82/100 ∧
    AiNeg.quality_opening_multiplier "A" = 80/100 ∧
    AiNeg.quality_opening_multiplier "B" = 76/100 ∧
    BB.generate_opening_offer ctx =
      min (pyint ((ctx.product.base_market_price : ℚ) * (75/100))) ctx.your_budget ∧
    BB.generate_opening_offer ctx ≤ ctx.your_budget := by
  have hq := AiNeg.quality_opening_range ctx.product.quality_grade
  have hqw := AiNeg.quality_opening_le_walkaway ctx.product.quality_grade
  have hm0 : (0 : ℚ) ≤ (ctx.product.base_market_price : ℚ) := by exact_mod_cast hmkt
  have h0 : (0 : ℚ) ≤ (ctx.product.base_market_price : ℚ) *
      AiNeg.quality_opening_multiplier ctx.product.quality_grade := by
    have := hq.1
    nlinarith
  have hAW : pyint ((ctx.product.base_market_price : ℚ) *
        AiNeg.quality_opening_multiplier ctx.product.quality_grade) ≤
      pyint ((ctx.product.base_market_price : ℚ) *
        AiNeg.quality_walkaway_multiplier ctx.product.quality_grade) :=
    pyint_mono_nonneg _ _ h0 (mul_le_mul_of_nonneg_left hqw hm0)
  refine ⟨?_, ?_, AiNeg.quality_opening_range, by decide, by decide, by decide, rfl,
    min_le_right _ _⟩
  · simp only [AiNeg.generate_opening_offer, AiNeg.bounds]
    omega
  · exact AiNeg.generate_opening_offer_le_budget ctx

/-- C9 witness: the Export grade context with market 200000 and budget
190000 satisfies the opening characterization. -/
theorem C9_opening_fraction_witness :
    AiNeg.generate_opening_offer AiNeg.cex4_ctx1 =
      min (pyint ((AiNeg.cex4_ctx1.product.base_market_price : ℚ) *
        AiNeg.quality_opening_multiplier AiNeg.cex4_ctx1.product.quality_grade))
        AiNeg.cex4_ctx1.your_budget :=
  (C9_opening_fraction AiNeg.cex4_ctx1 (by decide)).1

/-- C10 counterexample: after a forced increment pushed the previous own
offer to 95000, above the walkaway bound 94000, the next ongoing response
to the numeric seller price 120000 clamps back to 94000, strictly below
the previous own offer, refuting monotonicity. -/
theorem C10_counterexample :
    AiNeg.last_own AiNeg.cex10_ctx = 95000 ∧
    (AiNeg.respond_to_seller_offer (fun _ => 0) AiNeg.cex10_state AiNeg.cex10_ctx
      (some 120000)).1 = ONGOING ∧
    (AiNeg.respond_to_seller_offer (fun _ => 0) AiNeg.cex10_state AiNeg.cex10_ctx
      (some 120000)).2.1 = 94000 ∧
    (AiNeg.respond_to_seller_offer (fun _ => 0) AiNeg.cex10_state AiNeg.cex10_ctx
      (some 120000)).2.1 < AiNeg.last_own AiNeg.cex10_ctx := by
  decide

/-- C10 amended: every buyer response price to a numeric seller offer is
at most the budget; and an ongoing response is at least the previous own
offer provided that previous offer is at most the budget and at most the
walkaway bound, the condition the forced increment can break. -/
theorem C10_budget_bound_and_conditional_monotone (e : ℤ → ℚ) (st : AiNeg.BuyerState)
    (ctx : AiNeg.NegotiationContext) (sp : ℤ) :
    (AiNeg.respond_to_seller_offer e st ctx (some sp)).2.1 ≤ ctx.your_budget ∧
    ((AiNeg.respond_to_seller_offer e st ctx (some sp)).1 = ONGOING →
      AiNeg.last_own ctx ≤ ctx.your_budget →
      AiNeg.last_own ctx ≤ (AiNeg.bounds ctx).2 →
      AiNeg.last_own ctx ≤ (AiNeg.respond_to_seller_offer e st ctx (some sp)).2.1) := by
  refine ⟨AiNeg.respond_price_le_budget e st ctx (some sp), ?_⟩
  intro hong hb hw
  simp only [AiNeg.respond_to_seller_offer, AiNeg.MIN_STEP] at hong ⊢
  rcases hm2 : (AiNeg.update_seller_model st sp).seller_min_est with _ | est <;>
    simp only [hm2] at hong ⊢ <;> split_ifs at hong ⊢ <;>
      (dsimp only; omega)

/-- C10 amended witness: at a context with previous own offer 150000, at
most both bounds, the ongoing response to the seller price 300000 stays
at or above 150000 and within the budget. -/
theorem C10_budget_bound_and_conditional_monotone_witness :
    (AiNeg.respond_to_seller_offer (fun _ => 0) AiNeg.wit7_state AiNeg.wit7_ctx
      (some 300000)).2.1 ≤ AiNeg.wit7_ctx.your_budget ∧
    AiNeg.last_own AiNeg.wit7_ctx ≤
      (AiNeg.respond_to_seller_offer (fun _ => 0) AiNeg.wit7_state AiNeg.wit7_ctx
        (some 300000)).2.1 :=
  ⟨(C10_budget_bound_and_conditional_monotone (fun _ => 0) AiNeg.wit7_state
      AiNeg.wit7_ctx 300000).1,
    (C10_budget_bound_and_conditional_monotone (fun _ => 0) AiNeg.wit7_state
      AiNeg.wit7_ctx 300000).2 (by decide) (by decide) (by decide)⟩
